import Mathlib

/-!
Shallow embedding of the skilzy-python package manager core
(`src/skilzy/tracker.py`, `src/skilzy/actions.py`, error classes from
`src/skilzy/errors.py`), together with theorems settling the behavioural
claims about the install, sync, tracking-store and remove workflows.

Filesystem model: the project-root-relative filesystem is a finite
association list from install-directory path (a string, as the code keeps
paths as strings relative to the project root) to that directory's
contents, a tree of named nodes.  The tracking file `skilzy.json` is
modelled separately as either absent, present-but-invalid JSON, or a
valid manifest, matching what `SkillTracker` distinguishes.
-/

/-- Association-list lookup with Python-dict semantics (`d.get(k)` /
`d[k]`): the first binding of the key, if any. -/
def dictGet {α : Type} : List (String × α) → String → Option α
  | [], _ => none
  | (k, v) :: rest, key => if k = key then some v else dictGet rest key

/-- Python `k in d`. -/
def dictHas {α : Type} (l : List (String × α)) (key : String) : Bool :=
  (dictGet l key).isSome

/-- Python `d[k] = v`: update the first binding of the key in place
(keeping its position in insertion order) when the key exists, append a
new binding at the end otherwise. -/
def dictSet {α : Type} : List (String × α) → String → α → List (String × α)
  | [], key, v => [(key, v)]
  | (k, w) :: rest, key, v =>
      if k = key then (key, v) :: rest else (k, w) :: dictSet rest key v

/-- Python `del d[k]`. -/
def dictDel {α : Type} (l : List (String × α)) (key : String) :
    List (String × α) :=
  l.filter (fun p => ¬ (p.1 = key))

theorem dictGet_dictSet_self {α : Type} (l : List (String × α)) (k : String)
    (v : α) : dictGet (dictSet l k v) k = some v := by
  induction l with
  | nil => simp [dictSet, dictGet]
  | cons p rest ih =>
    obtain ⟨a, b⟩ := p
    by_cases hp : a = k
    · simp [dictSet, dictGet, hp]
    · simp [dictSet, dictGet, hp, ih]

theorem dictGet_dictDel_self {α : Type} (l : List (String × α)) (k : String) :
    dictGet (dictDel l k) k = none := by
  induction l with
  | nil => rfl
  | cons p rest ih =>
    by_cases hp : p.1 = k
    · simpa [dictDel, hp] using ih
    · simpa [dictDel, dictGet, hp] using ih

/-- One tracked-skill record, as stored under the `skills` mapping of
`skilzy.json` (see `SkillTracker.add_skill`): `author` is `none` when the
JSON object has no `author` field. -/
structure SkillEntry where
  version : String
  path : String
  dependencies : List String
  author : Option String
deriving Repr, DecidableEq

/-- The whole tracking document: top-level `version` field plus the
`skills` mapping, in insertion order. -/
structure Manifest where
  version : String
  skills : List (String × SkillEntry)
deriving Repr, DecidableEq

/-- Contents of the tracking file when it exists on disk: either valid
JSON of the manifest shape, or unparseable content (which
`load_skills` swallows to an empty mapping). -/
inductive FileContent where
  | valid (m : Manifest)
  | invalid
deriving Repr, DecidableEq

/-- State of the tracking file `skilzy.json`: absent or present. -/
inductive TrackingFile where
  | absent
  | file (c : FileContent)
deriving Repr, DecidableEq

/-- Embeds `SkillTracker.initialize_tracking_file`: create
`{"version": "1.0", "skills": {}}` if the file does not exist and return
`true`; otherwise leave the file alone and return `false`. -/
def initialize_tracking_file (st : TrackingFile) : Bool × TrackingFile :=
  match st with
  | .absent => (true, .file (.valid ⟨"1.0", []⟩))
  | .file c => (false, .file c)

/-- Embeds `SkillTracker.load_skills`: the `skills` mapping; empty on a missing
file and empty on unparseable content. -/
def load_skills (st : TrackingFile) : List (String × SkillEntry) :=
  match st with
  | .absent => []
  | .file .invalid => []
  | .file (.valid m) => m.skills

/-- Embeds `SkillTracker.save_skills`: rewrite the whole document with the given
mapping and the fixed schema version `"1.0"`. -/
def save_skills (skills : List (String × SkillEntry)) : TrackingFile :=
  .file (.valid ⟨"1.0", skills⟩)

/-- Python truthiness of `dependencies or []` for an optional list
argument (`None` and `[]` are both falsy). -/
def listOrNil (d : Option (List String)) : List String :=
  match d with
  | none => []
  | some l => if l.isEmpty then [] else l

/-- Python truthiness of the optional `author` string: `None` and the
empty string are falsy. -/
def strTruthy (s : Option String) : Bool :=
  match s with
  | none => false
  | some t => !(t = "")

/-- Embeds `SkillTracker.add_skill`: load, build the entry (the `author` field
is added only when the argument is truthy), upsert under `skill_name`,
save. -/
def add_skill (st : TrackingFile) (skill_name version path : String)
    (dependencies : Option (List String)) (author : Option String) :
    TrackingFile :=
  let skills := load_skills st
  let entry : SkillEntry :=
    { version := version
      path := path
      dependencies := listOrNil dependencies
      author := if strTruthy author then author else none }
  save_skills (dictSet skills skill_name entry)

/-- Embeds `SkillTracker.remove_skill`: load; when the key is present, delete it
and save, returning `true`; otherwise return `false` without touching the
file. -/
def remove_skill (st : TrackingFile) (skill_name : String) :
    Bool × TrackingFile :=
  let skills := load_skills st
  if dictHas skills skill_name then
    (true, save_skills (dictDel skills skill_name))
  else
    (false, st)

/-- The top-level `version` field of the tracking file, when the file
holds a valid document. -/
def manifestVersion (st : TrackingFile) : Option String :=
  match st with
  | .file (.valid m) => some m.version
  | _ => none

/-- C6: initialize() is idempotent: when the manifest file already exists
(whatever its contents) it returns false and leaves the file untouched;
when it is absent it creates the document with version "1.0" and an empty
skills mapping and returns true. -/
theorem c6_initialize_idempotent (st : TrackingFile) :
    (st ≠ .absent → initialize_tracking_file st = (false, st)) ∧
    (st = .absent →
      initialize_tracking_file st = (true, .file (.valid ⟨"1.0", []⟩))) := by
  constructor
  · intro h
    match st with
    | .absent => exact absurd rfl h
    | .file c => rfl
  · intro h
    subst h
    rfl

/-- Witness for C6 at a concrete existing manifest and at the absent
state. -/
theorem c6_initialize_idempotent_witness :
    initialize_tracking_file
        (.file (.valid ⟨"1.0", [("acme/pdf", ⟨"1.2.0", "skills/pdf", [], none⟩)]⟩)) =
      (false,
        .file (.valid ⟨"1.0", [("acme/pdf", ⟨"1.2.0", "skills/pdf", [], none⟩)]⟩)) ∧
    initialize_tracking_file .absent = (true, .file (.valid ⟨"1.0", []⟩)) :=
  ⟨(c6_initialize_idempotent _).1 (by simp), (c6_initialize_idempotent _).2 rfl⟩

/-- C3 (amended): every mutating Tracking Store operation that rewrites
the document writes it with the fixed schema version "1.0" regardless of
the version previously stored, so the version value is preserved exactly
when it was already "1.0"; remove on a missing key does not rewrite the
file at all. -/
theorem c3_mutations_write_fixed_version (st : TrackingFile)
    (k v p : String) (d : Option (List String)) (a : Option String) :
    manifestVersion (add_skill st k v p d a) = some "1.0" ∧
    ((remove_skill st k).1 = true →
      manifestVersion (remove_skill st k).2 = some "1.0") ∧
    ((remove_skill st k).1 = false → (remove_skill st k).2 = st) := by
  refine ⟨rfl, ?_, ?_⟩ <;>
  · intro h
    unfold remove_skill at h ⊢
    by_cases hk : dictHas (load_skills st) k
    · simp_all [save_skills, manifestVersion]
    · simp_all

/-- Witness for C3 at concrete stores: an add, a remove of a present
key, and a remove of a missing key. -/
theorem c3_mutations_write_fixed_version_witness :
    manifestVersion
        (add_skill (.file (.valid ⟨"1.0", []⟩)) "acme/pdf" "1.2.0"
          "skills/pdf" (some []) (some "acme")) = some "1.0" ∧
    manifestVersion
        (remove_skill
          (.file (.valid ⟨"1.0",
            [("acme/pdf", ⟨"1.2.0", "skills/pdf", [], none⟩)]⟩))
          "acme/pdf").2 = some "1.0" ∧
    (remove_skill (.file (.valid ⟨"1.0", []⟩)) "acme/pdf").2 =
      .file (.valid ⟨"1.0", []⟩) := by
  refine ⟨(c3_mutations_write_fixed_version (.file (.valid ⟨"1.0", []⟩))
    "acme/pdf" "1.2.0" "skills/pdf" (some []) (some "acme")).1, ?_, ?_⟩
  · exact (c3_mutations_write_fixed_version
      (.file (.valid ⟨"1.0",
        [("acme/pdf", ⟨"1.2.0", "skills/pdf", [], none⟩)]⟩))
      "acme/pdf" "1.2.0" "skills/pdf" (some []) (some "acme")).2.1
      (by decide)
  · exact (c3_mutations_write_fixed_version (.file (.valid ⟨"1.0", []⟩))
      "acme/pdf" "1.2.0" "skills/pdf" (some []) (some "acme")).2.2 rfl

/-- Counterexample to C3 as stated: a manifest whose version field is
"2.0" does not keep it across add_skill — the document is rewritten with
version "1.0". -/
theorem c3_counterexample :
    manifestVersion
        (add_skill (.file (.valid ⟨"2.0", []⟩)) "acme/pdf" "1.2.0"
          "skills/pdf" (some []) (some "acme")) = some "1.0" ∧
    ¬ (some "1.0" = some "2.0") := ⟨rfl, by decide⟩

/-- C7 (amended): addOrUpdate followed by load round-trips the written
entry under the written key, overwriting any prior entry for that key:
version, path and dependency list come back exactly as written, and the
author field is present precisely when a non-empty author string was
supplied (Python truthiness of the `author` argument). -/
theorem c7_add_load_roundtrip (st : TrackingFile) (k v p : String)
    (d : List String) (a : Option String) :
    dictGet (load_skills (add_skill st k v p (some d) a)) k =
      some { version := v, path := p, dependencies := d,
             author := if strTruthy a then a else none } ∧
    (if strTruthy a then a else none).isSome = strTruthy a := by
  constructor
  · have hd : listOrNil (some d) = d := by
      cases d <;> simp [listOrNil]
    have h1 : load_skills (add_skill st k v p (some d) a) =
        dictSet (load_skills st) k
          { version := v, path := p, dependencies := listOrNil (some d),
            author := if strTruthy a then a else none } := rfl
    rw [h1, dictGet_dictSet_self, hd]
  · cases a with
    | none => rfl
    | some s =>
      by_cases hs : s = "" <;> simp [strTruthy, hs]

/-- Counterexample to C7 as stated: supplying the empty string as author
("an author was supplied") stores an entry with no author field, because
the code guards the field with Python truthiness (`if author:`). -/
theorem c7_counterexample :
    ((dictGet
        (load_skills
          (add_skill (.file (.valid ⟨"1.0", []⟩)) "acme/pdf" "1.2.0"
            "skills/pdf" (some []) (some ""))) "acme/pdf").map
      (fun e => e.author.isSome)) = some false ∧
    (some "" : Option String).isSome = true := ⟨rfl, rfl⟩

/-- C8: remove on a key not present in the skills mapping returns false
and leaves the tracking file entirely unchanged (hence same version
field and same other entries). -/
theorem c8_remove_missing_key_noop (st : TrackingFile) (k : String)
    (h : dictGet (load_skills st) k = none) :
    remove_skill st k = (false, st) := by
  unfold remove_skill
  simp [dictHas, h]

/-- Witness for C8 at a concrete store holding one other entry. -/
theorem c8_remove_missing_key_noop_witness :
    dictGet
        (load_skills
          (.file (.valid ⟨"1.0",
            [("acme/other", ⟨"0.1.0", "skills/other", [], none⟩)]⟩)))
        "acme/pdf" = none ∧
    remove_skill
        (.file (.valid ⟨"1.0",
          [("acme/other", ⟨"0.1.0", "skills/other", [], none⟩)]⟩))
        "acme/pdf" =
      (false,
        .file (.valid ⟨"1.0",
          [("acme/other", ⟨"0.1.0", "skills/other", [], none⟩)]⟩)) :=
  ⟨by decide, c8_remove_missing_key_noop _ _ (by decide)⟩

/-- HTTP-status-mapped subclass of `SkilzyAPIError` (see
`client._handle_response` and `errors.py`). -/
inductive APIKind where
  | generic
  | notFound
  | authentication
  | permission
  | conflict
deriving Repr, DecidableEq

/-- Exceptions raised by the embedded code: the `SkilzyError` hierarchy
of `errors.py` plus the Python builtins that `actions.py` / `tracker.py`
raise (`ValueError`, `FileExistsError`, `FileNotFoundError`, `IOError`,
bare `Exception`). -/
inductive Err where
  | valueError (msg : String)
  | fileExistsError (msg : String)
  | fileNotFoundError (msg : String)
  | ioError (msg : String)
  | skilzyError (msg : String)
  | skilzyAPIError (kind : APIKind) (msg : String) (status : Nat)
  | exception (msg : String)
deriving Repr, DecidableEq

/-- Python `isinstance(e, SkilzyError)`: the base class and every
`SkilzyAPIError` subclass, nothing else. -/
def isSkilzyError : Err → Bool
  | .skilzyError _ => true
  | .skilzyAPIError _ _ _ => true
  | _ => false

/-- A node of the extracted tree inside an install directory: a plain
file or a directory with named children in listing order. -/
inductive FsNode where
  | file
  | dir (entries : List (String × FsNode))

/-- Contents of one directory: named children in listing order. -/
abbrev DirEntries := List (String × FsNode)

/-- Whether a directory has a direct child named `skill.json`
(`(install_dir / "skill.json").exists()`). -/
def hasMarker (es : DirEntries) : Bool :=
  es.any (fun p => p.1 == "skill.json")

/-- Auxiliary scan for `findMarkerDir`: search the subdirectories of the
given sibling list, in listing order, for the first one (pre-order)
holding a `skill.json` child; returns its path. -/
def findMarkerDirAux : DirEntries → Option (List String)
  | [] => none
  | (_, .file) :: rest => findMarkerDirAux rest
  | (n, .dir es) :: rest =>
      match (if hasMarker es then some [] else findMarkerDirAux es) with
      | some p => some (n :: p)
      | none => findMarkerDirAux rest

/-- Embeds `next(install_dir.rglob("skill.json"), None)`, reduced to the
directory that contains the first match: pre-order traversal (the root
itself first, then each subdirectory recursively in listing order),
returning the path of the first directory with a child named
`skill.json`. -/
def findMarkerDir (es : DirEntries) : Option (List String) :=
  if hasMarker es then some [] else findMarkerDirAux es

/-- Contents of the subdirectory at the given path below a root. -/
def getDirAt : DirEntries → List String → Option DirEntries
  | es, [] => some es
  | es, n :: p =>
      match dictGet es n with
      | some (.dir es') => getDirAt es' p
      | _ => none

/-- Remove the entry at the given path below a root
(`shutil.rmtree(source_dir)` on a directory strictly below the install
root). -/
def removeDirAt : List String → DirEntries → DirEntries
  | [], es => es
  | [n], es => es.filter (fun q => ¬ (q.1 = n))
  | n :: p, es =>
      es.map (fun q =>
        if q.1 = n then
          match q.2 with
          | .dir es' => (q.1, .dir (removeDirAt p es'))
          | other => (q.1, other)
        else q)

/-- The nested-directory normalization of `install` / `sync_skills`
(actions.py lines 213-223 and 356-364): locate the first `skill.json`;
if none exists raise the generic invalid-package exception; if its
containing directory is the install root itself do nothing; otherwise
move every child of the containing directory up into the root (appending
in iteration order — faithful to the `shutil.move` loop when no moved
name collides with an existing root entry, where the underlying move
would instead fail or nest) and then delete the containing directory. -/
def normalizeInstallDir (es : DirEntries) : Except Err DirEntries :=
  match findMarkerDir es with
  | none => .error (.exception "Invalid package: skill.json not found.")
  | some [] => .ok es
  | some p =>
      match getDirAt es p with
      | none => .ok es
      | some cs => .ok (removeDirAt p (es ++ cs))

theorem dictGet_isSome_mem {α : Type} {l : List (String × α)} {k : String}
    {v : α} (h : dictGet l k = some v) : ∃ r ∈ l, r.1 = k ∧ r.2 = v := by
  induction l with
  | nil => simp [dictGet] at h
  | cons p rest ih =>
    obtain ⟨a, b⟩ := p
    by_cases hp : a = k
    · simp [dictGet, hp] at h
      exact ⟨(a, b), List.mem_cons_self _ _, hp, h⟩
    · simp only [dictGet, hp, if_false] at h
      obtain ⟨r, hr, h1, h2⟩ := ih h
      exact ⟨r, List.mem_cons_of_mem _ hr, h1, h2⟩

/-- C4 (amended): when the first `skill.json` (in traversal order) sits
exactly one directory level below the target root — inside the nested
directory named `a` with children `cs` — and no child name of `cs`
collides with a root entry name, normalization moves every entry of the
nested directory up into the target root and deletes it: the root's
direct children afterwards are exactly the nested directory's former
children together with the root's other former entries (the nested
directory itself removed), the marker file is directly under the root,
and no entry named `a` remains. -/
theorem c4_flatten_one_level (es cs : DirEntries) (a : String)
    (hfind : findMarkerDir es = some [a])
    (hget : getDirAt es [a] = some cs)
    (hroot : dictGet es a = some (.dir cs))
    (hm : hasMarker cs = true)
    (hdisj : ∀ q ∈ cs, ∀ r ∈ es, ¬ (q.1 = r.1)) :
    normalizeInstallDir es = .ok (es.filter (fun q => ¬ (q.1 = a)) ++ cs) ∧
    hasMarker (es.filter (fun q => ¬ (q.1 = a)) ++ cs) = true ∧
    (∀ q ∈ es.filter (fun q => ¬ (q.1 = a)) ++ cs, ¬ (q.1 = a)) := by
  have hmem : ∃ r ∈ es, r.1 = a ∧ r.2 = .dir cs := dictGet_isSome_mem hroot
  have hcs : ∀ q ∈ cs, ¬ (q.1 = a) := by
    intro q hq hqa
    obtain ⟨r, hr, hra, _⟩ := hmem
    exact hdisj q hq r hr (hqa.trans hra.symm)
  have hfilter : (es ++ cs).filter (fun q => ¬ (q.1 = a)) =
      es.filter (fun q => ¬ (q.1 = a)) ++ cs := by
    rw [List.filter_append]
    congr 1
    refine List.filter_eq_self.mpr (fun q hq => ?_)
    simpa using hcs q hq
  refine ⟨?_, ?_, ?_⟩
  · unfold normalizeInstallDir
    rw [hfind]
    simp only [hget, removeDirAt]
    rw [hfilter]
  · unfold hasMarker at hm ⊢
    rw [List.any_append, hm, Bool.or_true]
  · intro q hq
    rcases List.mem_append.mp hq with h | h
    · have := List.of_mem_filter h
      simpa using this
    · exact hcs q h

/-- Witness for C4: a typical repository-style archive, one nesting
level, with an extra loose root file whose name does not collide. -/
theorem c4_flatten_one_level_witness :
    normalizeInstallDir
        [("pkg", .dir [("skill.json", .file), ("SKILL.md", .file)]),
         ("README.md", .file)] =
      .ok [("README.md", .file), ("skill.json", .file), ("SKILL.md", .file)] := by
  have h := c4_flatten_one_level
    [("pkg", .dir [("skill.json", .file), ("SKILL.md", .file)]),
     ("README.md", .file)]
    [("skill.json", .file), ("SKILL.md", .file)] "pkg"
    (by simp [findMarkerDir, findMarkerDirAux, hasMarker])
    (by simp [getDirAt, dictGet])
    (by simp [dictGet])
    (by simp [hasMarker])
    (by decide)
  simpa using h.1

/-- Counterexample to C4 as stated: with an extra loose file `b` beside
the nested directory, the root's direct children after normalization are
`b` and `skill.json` — not exactly the nested directory's former
children (`skill.json` alone), so the "exactly the nested directory's
former children" conclusion fails. -/
theorem c4_counterexample :
    ((normalizeInstallDir
        [("a", .dir [("skill.json", .file)]), ("b", .file)]).map
      (fun r => r.map Prod.fst)) = .ok ["b", "skill.json"] ∧
    ¬ (["b", "skill.json"] = ["skill.json"]) := by
  constructor
  · simp [normalizeInstallDir, findMarkerDir, findMarkerDirAux, hasMarker,
      getDirAt, dictGet, removeDirAt, Except.map]
  · decide

/-- Python `s.split('/', 1)`: the part before the first slash, and the
remainder after it. -/
def splitFirst (s : String) : String × String :=
  (String.mk (s.data.takeWhile (fun c => !(c == '/'))),
   String.mk ((s.data.dropWhile (fun c => !(c == '/'))).drop 1))

/-- Python `c in s` for a single character. -/
def strContains (s : String) (c : Char) : Bool :=
  s.data.any (fun d => d == c)

/-- The on-disk world an action mutates: the install directories present
under the project root (keyed by their root-relative path string) and the
tracking file. -/
abbrev Dirs := List (String × DirEntries)

structure SysState where
  dirs : Dirs
  tracking : TrackingFile

/-- The guarded `shutil.rmtree`: `if d.exists(): shutil.rmtree(d)`. -/
def rmIfExists (dirs : Dirs) (k : String) : Dirs :=
  if (dictGet dirs k).isSome = true then dictDel dirs k else dirs

theorem dictGet_rmIfExists_self (dirs : Dirs) (k : String) :
    dictGet (rmIfExists dirs k) k = none := by
  unfold rmIfExists
  by_cases h : (dictGet dirs k).isSome = true
  · rw [if_pos h]
    exact dictGet_dictDel_self _ _
  · rw [if_neg h]
    exact Option.not_isSome_iff_eq_none.mp (by simpa using h)

theorem rmIfExists_of_none {dirs : Dirs} {k : String}
    (h : dictGet dirs k = none) : rmIfExists dirs k = dirs := by
  unfold rmIfExists
  simp [h]

/-- Embeds `install` lines 165-167: create the tracking file when it is missing,
leave it alone otherwise. -/
def trackingAfterInit (t : TrackingFile) : TrackingFile :=
  match t with
  | .absent => (initialize_tracking_file .absent).2
  | .file c => .file c

/-- The target directory of `install`: the explicit path when given,
else `skills/<name>` below the project root. -/
def installTargetDir (skill_name : String) (path : Option String) : String :=
  match path with
  | some p => p
  | none => "skills/" ++ (splitFirst skill_name).2

/-- External collaborators of one `install` run: the two registry
metadata responses (version listing, declared python dependencies), the
outcome of download-plus-extraction (on success, the contents the
install directory holds after `extractall` and removal of the temporary
package file), and the outcome of the tracking-file write. -/
structure InstallOracle where
  details : Except Err (List String)
  versionDeps : Except Err (List String)
  extract : Except Err DirEntries
  saveResult : Except Err Unit

structure InstallResult where
  skill : String
  version : String
  path : String
deriving Repr, DecidableEq

/-- The `try:` block of `install` (actions.py lines 181-257), entered
with the directory conflict already resolved: fetch details, take
`versions[0]` (an IndexError on an empty listing), fetch dependency
metadata, create the target directory, download and extract, normalize
the layout, record in the tracking store; on any exception remove the
target directory if it exists and re-raise. -/
def installTry (skill_name installDir author : String) (o : InstallOracle)
    (dirs0 : Dirs) (tracking0 : TrackingFile) :
    Except Err InstallResult × SysState :=
  match o.details with
  | .error e => (.error e, ⟨rmIfExists dirs0 installDir, tracking0⟩)
  | .ok [] =>
      (.error (.exception "list index out of range"),
       ⟨rmIfExists dirs0 installDir, tracking0⟩)
  | .ok (latest :: _) =>
      match o.versionDeps with
      | .error e => (.error e, ⟨rmIfExists dirs0 installDir, tracking0⟩)
      | .ok deps =>
          match o.extract with
          | .error e =>
              (.error e,
               ⟨rmIfExists (dictSet dirs0 installDir []) installDir,
                tracking0⟩)
          | .ok archive =>
              match normalizeInstallDir archive with
              | .error e =>
                  (.error e,
                   ⟨rmIfExists
                      (dictSet (dictSet dirs0 installDir []) installDir
                        archive) installDir,
                    tracking0⟩)
              | .ok res =>
                  match o.saveResult with
                  | .error e =>
                      (.error e,
                       ⟨rmIfExists
                          (dictSet
                            (dictSet (dictSet dirs0 installDir []) installDir
                              archive) installDir res) installDir,
                        tracking0⟩)
                  | .ok _ =>
                      (.ok ⟨skill_name, latest, installDir⟩,
                       ⟨dictSet
                          (dictSet (dictSet dirs0 installDir []) installDir
                            archive) installDir res,
                        add_skill tracking0 skill_name latest installDir
                          (some deps) (some author)⟩)

/-- Embeds `install` (actions.py lines 130-257): name-format check, tracking
file creation, directory-conflict check (delete the old directory when
`overwrite` is set), then the `try:` block. -/
def install (skill_name : String) (path : Option String) (overwrite : Bool)
    (o : InstallOracle) (st : SysState) :
    Except Err InstallResult × SysState :=
  if skill_name = "" ∨ strContains skill_name '/' = false then
    (.error (.valueError
        "Invalid skill name format. Expected author/skill-name."), st)
  else if (dictGet st.dirs (installTargetDir skill_name path)).isSome = true
      ∧ overwrite = false then
    (.error (.fileExistsError
        "Directory already exists. Use overwrite or a different path."),
     ⟨st.dirs, trackingAfterInit st.tracking⟩)
  else
    installTry skill_name (installTargetDir skill_name path)
      (splitFirst skill_name).1 o
      (rmIfExists st.dirs (installTargetDir skill_name path))
      (trackingAfterInit st.tracking)

theorem installTry_cleanup (skill_name installDir author : String)
    (o : InstallOracle) (dirs0 : Dirs) (tracking0 : TrackingFile)
    (e : Err) (st' : SysState)
    (h : installTry skill_name installDir author o dirs0 tracking0 =
      (.error e, st')) :
    dictGet st'.dirs installDir = none := by
  unfold installTry at h
  split at h
  · injection h with h1 h2
    subst h2
    exact dictGet_rmIfExists_self _ _
  · injection h with h1 h2
    subst h2
    exact dictGet_rmIfExists_self _ _
  · split at h
    · injection h with h1 h2
      subst h2
      exact dictGet_rmIfExists_self _ _
    · split at h
      · injection h with h1 h2
        subst h2
        exact dictGet_rmIfExists_self _ _
      · split at h
        · injection h with h1 h2
          subst h2
          exact dictGet_rmIfExists_self _ _
        · split at h
          · injection h with h1 h2
            subst h2
            exact dictGet_rmIfExists_self _ _
          · injection h with h1 h2
            cases h1

theorem not_exists_conflict {dirs : Dirs} {dir : String} {overwrite : Bool}
    (hover : overwrite = true ∨ dictGet dirs dir = none) :
    ¬ ((dictGet dirs dir).isSome = true ∧ overwrite = false) := by
  rintro ⟨h1, h2⟩
  rcases hover with h | h
  · rw [h] at h2
    cases h2
  · rw [h] at h1
    cases h1

/-- C1: for every install invocation that passes the name-format check
and the directory-conflict check (so the target directory is created by
this run, not inherited), any error outcome — registry failure, empty
version listing, download or extraction failure, missing marker during
normalization, tracking-store write failure — leaves no target directory
on disk: the caller-level cleanup deletes it before the error
propagates. -/
theorem c1_install_cleanup_on_error (skill_name : String)
    (path : Option String) (overwrite : Bool) (o : InstallOracle)
    (st : SysState) (e : Err) (st' : SysState)
    (hne : ¬ (skill_name = ""))
    (hsl : strContains skill_name '/' = true)
    (hover : overwrite = true ∨
      dictGet st.dirs (installTargetDir skill_name path) = none)
    (h : install skill_name path overwrite o st = (.error e, st')) :
    dictGet st'.dirs (installTargetDir skill_name path) = none := by
  unfold install at h
  rw [if_neg (by rw [not_or]; exact ⟨hne, by simp [hsl]⟩)] at h
  rw [if_neg (not_exists_conflict hover)] at h
  exact installTry_cleanup _ _ _ _ _ _ _ _ h

/-- A run whose download fails with an API error. -/
def dlFailOracle : InstallOracle :=
  { details := .ok ["1.0.0"]
    versionDeps := .ok []
    extract := .error (.skilzyAPIError .generic
      "Failed to download skill. Status code: 500" 500)
    saveResult := .ok () }

/-- Empty project: no install directories, fresh tracking file. -/
def stEmpty : SysState := ⟨[], .file (.valid ⟨"1.0", []⟩)⟩

/-- Witness for C1: a concrete run whose download fails after the target
directory was created. -/
theorem c1_install_cleanup_on_error_witness :
    dictGet (install "acme/pdf" none false dlFailOracle stEmpty).2.dirs
      (installTargetDir "acme/pdf" none) = none :=
  c1_install_cleanup_on_error "acme/pdf" none false dlFailOracle stEmpty
    (.skilzyAPIError .generic "Failed to download skill. Status code: 500" 500)
    (install "acme/pdf" none false dlFailOracle stEmpty).2
    (by decide) (by decide) (.inr rfl) rfl

/-- C9: install with overwrite on an existing target directory deletes
the old installation before the first registry call; when the metadata
fetch then fails, the error propagates with no target directory left on
disk (the old installation is not restored) while the tracking file —
which already existed — is byte-for-byte unchanged, so its entry for the
skill still points at the now-missing path. -/
theorem c9_overwrite_no_restore (skill_name : String) (path : Option String)
    (o : InstallOracle) (st : SysState) (e : Err) (d0 : DirEntries)
    (c : FileContent)
    (hne : ¬ (skill_name = ""))
    (hsl : strContains skill_name '/' = true)
    (hex : dictGet st.dirs (installTargetDir skill_name path) = some d0)
    (htrack : st.tracking = .file c)
    (hdet : o.details = .error e) :
    (install skill_name path true o st).1 = .error e ∧
    dictGet (install skill_name path true o st).2.dirs
      (installTargetDir skill_name path) = none ∧
    (install skill_name path true o st).2.tracking = st.tracking := by
  have hinst : install skill_name path true o st =
      (.error e,
       ⟨rmIfExists (rmIfExists st.dirs (installTargetDir skill_name path))
          (installTargetDir skill_name path),
        trackingAfterInit st.tracking⟩) := by
    unfold install
    rw [if_neg (by rw [not_or]; exact ⟨hne, by simp [hsl]⟩)]
    rw [if_neg (by rintro ⟨_, h2⟩; cases h2)]
    unfold installTry
    rw [hdet]
  refine ⟨by rw [hinst], by rw [hinst]; exact dictGet_rmIfExists_self _ _, ?_⟩
  rw [hinst]
  show trackingAfterInit st.tracking = st.tracking
  rw [htrack]
  rfl

/-- A metadata fetch failing with 404. -/
def notFoundOracle : InstallOracle :=
  { details := .error (.skilzyAPIError .notFound
      "API Error 404: Skill not found" 404)
    versionDeps := .ok []
    extract := .ok []
    saveResult := .ok () }

/-- A project that already has `skills/pdf` installed and tracked. -/
def stInstalled : SysState :=
  ⟨[("skills/pdf", [("skill.json", .file)])],
   .file (.valid ⟨"1.0",
     [("acme/pdf", ⟨"1.2.0", "skills/pdf", [], some "acme"⟩)]⟩)⟩

/-- Witness for C9 at a concrete overwrite-install whose metadata fetch
fails. -/
theorem c9_overwrite_no_restore_witness :
    (install "acme/pdf" none true notFoundOracle stInstalled).1 =
      .error (.skilzyAPIError .notFound "API Error 404: Skill not found" 404) ∧
    dictGet (install "acme/pdf" none true notFoundOracle stInstalled).2.dirs
      (installTargetDir "acme/pdf" none) = none ∧
    (install "acme/pdf" none true notFoundOracle stInstalled).2.tracking =
      stInstalled.tracking :=
  c9_overwrite_no_restore "acme/pdf" none notFoundOracle stInstalled
    (.skilzyAPIError .notFound "API Error 404: Skill not found" 404)
    [("skill.json", .file)]
    (.valid ⟨"1.0", [("acme/pdf", ⟨"1.2.0", "skills/pdf", [], some "acme"⟩)]⟩)
    (by decide) (by decide) rfl rfl rfl

/-- Modelled from the spec: §7 presents an error taxonomy of dedicated,
distinguishable error classes (FormatError, ConflictError, the
registry-API family, ConnectionError, InvalidPackageError,
TrackingFileMissingError); an error is distinguishable in the taxonomy's
sense precisely when it is not the catch-all bare `Exception`. The code
base defines no InvalidPackageError class — `errors.py` has only the
`SkilzyError` family. -/
def specDistinguishable : Err → Bool
  | .exception _ => false
  | _ => true

/-- C5 (amended): an archive containing no `skill.json` anywhere makes
install fail with the bare generic exception carrying the message
"Invalid package: skill.json not found." (not a dedicated taxonomy
error), and the caller-level cleanup removes the target directory, so no
target directory is left behind. -/
theorem c5_invalid_package (skill_name : String) (path : Option String)
    (overwrite : Bool) (o : InstallOracle) (st : SysState)
    (latest : String) (vs deps : List String) (archive : DirEntries)
    (hne : ¬ (skill_name = ""))
    (hsl : strContains skill_name '/' = true)
    (hover : overwrite = true ∨
      dictGet st.dirs (installTargetDir skill_name path) = none)
    (hdet : o.details = .ok (latest :: vs))
    (hdeps : o.versionDeps = .ok deps)
    (hext : o.extract = .ok archive)
    (hmk : findMarkerDir archive = none) :
    (install skill_name path overwrite o st).1 =
      .error (.exception "Invalid package: skill.json not found.") ∧
    dictGet (install skill_name path overwrite o st).2.dirs
      (installTargetDir skill_name path) = none := by
  have hnorm : normalizeInstallDir archive =
      .error (.exception "Invalid package: skill.json not found.") := by
    unfold normalizeInstallDir
    rw [hmk]
  have hinst : install skill_name path overwrite o st =
      (.error (.exception "Invalid package: skill.json not found."),
       ⟨rmIfExists
          (dictSet
            (dictSet (rmIfExists st.dirs (installTargetDir skill_name path))
              (installTargetDir skill_name path) [])
            (installTargetDir skill_name path) archive)
          (installTargetDir skill_name path),
        trackingAfterInit st.tracking⟩) := by
    unfold install
    rw [if_neg (by rw [not_or]; exact ⟨hne, by simp [hsl]⟩)]
    rw [if_neg (not_exists_conflict hover)]
    unfold installTry
    simp only [hdet, hdeps, hext, hnorm]
  exact ⟨by rw [hinst], by rw [hinst]; exact dictGet_rmIfExists_self _ _⟩

/-- A run that downloads fine but whose archive holds no `skill.json`. -/
def noMarkerOracle : InstallOracle :=
  { details := .ok ["1.0.0"]
    versionDeps := .ok []
    extract := .ok [("README.md", .file)]
    saveResult := .ok () }

/-- Witness for C5 at a concrete markerless archive. -/
theorem c5_invalid_package_witness :
    (install "acme/pdf" none false noMarkerOracle stEmpty).1 =
      .error (.exception "Invalid package: skill.json not found.") ∧
    dictGet (install "acme/pdf" none false noMarkerOracle stEmpty).2.dirs
      (installTargetDir "acme/pdf" none) = none :=
  c5_invalid_package "acme/pdf" none false noMarkerOracle stEmpty
    "1.0.0" [] [] [("README.md", .file)]
    (by decide) (by decide) (.inr rfl) rfl rfl rfl
    (by simp [findMarkerDir, findMarkerDirAux, hasMarker])

/-- Counterexample to C5 as stated: at a concrete markerless archive the
error install raises is the bare generic `Exception` — not a
distinguishable error of the spec's taxonomy (the code base has no
InvalidPackageError class). -/
theorem c5_counterexample :
    (install "acme/pdf" none false noMarkerOracle stEmpty).1 =
      .error (.exception "Invalid package: skill.json not found.") ∧
    specDistinguishable
        (.exception "Invalid package: skill.json not found.") = false := by
  have hnorm : normalizeInstallDir [("README.md", FsNode.file)] =
      .error (.exception "Invalid package: skill.json not found.") := by
    unfold normalizeInstallDir
    rw [show findMarkerDir [("README.md", FsNode.file)] = none from by
      simp [findMarkerDir, findMarkerDirAux, hasMarker]]
  refine ⟨?_, rfl⟩
  unfold install
  rw [if_neg (by decide), if_neg (by decide)]
  unfold installTry
  simp only [show noMarkerOracle.details = .ok ["1.0.0"] from rfl,
    show noMarkerOracle.versionDeps = .ok [] from rfl,
    show noMarkerOracle.extract = .ok [("README.md", FsNode.file)] from rfl,
    hnorm]

/-- Embeds `install_dir.exists() and (install_dir / "skill.json").exists()`:
the entry's install directory is present and holds the marker file. -/
def markerPresent (dirs : Dirs) (p : String) : Bool :=
  match dictGet dirs p with
  | some es => hasMarker es
  | none => false

/-- Embeds `if install_dir.exists() and force: shutil.rmtree(install_dir)`. -/
def forceRemove (dirs : Dirs) (p : String) (force : Bool) : Dirs :=
  if (dictGet dirs p).isSome = true ∧ force = true then dictDel dirs p
  else dirs

/-- Embeds `install_dir.mkdir(parents=True, exist_ok=True)`: create the
directory empty when absent, keep its contents when present. -/
def mkdirP (dirs : Dirs) (p : String) : Dirs :=
  if (dictGet dirs p).isSome = true then dirs else dictSet dirs p []

/-- External collaborator of one sync entry: download-and-extract as a
function of the directory contents before `extractall` (on success it
returns the contents afterwards, the temporary package file already
removed). -/
structure SyncOracle where
  extract : DirEntries → Except Err DirEntries

structure SyncResult where
  success_count : Nat
  skip_count : Nat
  error_count : Nat
deriving Repr, DecidableEq

/-- Modelled from cli.py lines 184-186: the sync command exits with a
failure code exactly when the returned error count is positive. -/
def syncSignalsFailure (r : SyncResult) : Bool :=
  decide (0 < r.error_count)

/-- The per-entry loop body of `sync_skills` (actions.py lines 301-378):
skip when no reinstall is needed; count an unresolvable author as an
error and continue; otherwise force-remove, mkdir, download+extract and
normalize, catching `SkilzyError` with no directory cleanup and any
other exception with removal of the install directory. -/
def syncStep (force : Bool) (o : String → SyncOracle)
    (acc : SyncResult × Dirs) (kv : String × SkillEntry) :
    SyncResult × Dirs :=
  if (force || !(markerPresent acc.2 kv.2.path)) = false then
    ({ acc.1 with skip_count := acc.1.skip_count + 1 }, acc.2)
  else if strContains kv.1 '/' = false ∧ strTruthy kv.2.author = false then
    ({ acc.1 with error_count := acc.1.error_count + 1 }, acc.2)
  else
    match (o kv.1).extract
        ((dictGet (mkdirP (forceRemove acc.2 kv.2.path force) kv.2.path)
            kv.2.path).getD []) with
    | .error err =>
        if isSkilzyError err = true then
          ({ acc.1 with error_count := acc.1.error_count + 1 },
           mkdirP (forceRemove acc.2 kv.2.path force) kv.2.path)
        else
          ({ acc.1 with error_count := acc.1.error_count + 1 },
           rmIfExists (mkdirP (forceRemove acc.2 kv.2.path force) kv.2.path)
             kv.2.path)
    | .ok es =>
        match normalizeInstallDir es with
        | .error _ =>
            ({ acc.1 with error_count := acc.1.error_count + 1 },
             rmIfExists
               (dictSet (mkdirP (forceRemove acc.2 kv.2.path force)
                   kv.2.path) kv.2.path es)
               kv.2.path)
        | .ok res =>
            ({ acc.1 with success_count := acc.1.success_count + 1 },
             dictSet (mkdirP (forceRemove acc.2 kv.2.path force) kv.2.path)
               kv.2.path res)

/-- Embeds `sync_skills` (actions.py lines 259-392): fail fast when the
tracking file is absent; report zero counts when nothing is tracked;
otherwise fold the per-entry step over the tracked entries in stored
order and return the tally (the tracking file itself is never
rewritten). -/
def sync_skills (force : Bool) (o : String → SyncOracle) (st : SysState) :
    Except Err SyncResult × SysState :=
  match st.tracking with
  | .absent =>
      (.error (.fileNotFoundError "Tracking file skilzy.json not found."),
       st)
  | .file c =>
      if (load_skills (.file c)).isEmpty = true then (.ok ⟨0, 0, 0⟩, st)
      else
        (.ok ((load_skills (.file c)).foldl (syncStep force o)
            (⟨0, 0, 0⟩, st.dirs)).1,
         ⟨((load_skills (.file c)).foldl (syncStep force o)
            (⟨0, 0, 0⟩, st.dirs)).2,
          .file c⟩)

def syncTotal (r : SyncResult) : Nat :=
  r.success_count + r.skip_count + r.error_count

theorem syncStep_total (force : Bool) (o : String → SyncOracle)
    (acc : SyncResult × Dirs) (kv : String × SkillEntry) :
    syncTotal (syncStep force o acc kv).1 = syncTotal acc.1 + 1 := by
  unfold syncStep
  repeat' split
  all_goals simp only [syncTotal]
  all_goals omega

theorem sync_foldl_total (force : Bool) (o : String → SyncOracle)
    (l : List (String × SkillEntry)) (acc : SyncResult × Dirs) :
    syncTotal ((l.foldl (syncStep force o) acc).1) =
      syncTotal acc.1 + l.length := by
  induction l generalizing acc with
  | nil => simp
  | cons kv rest ih =>
    simp only [List.foldl_cons, List.length_cons]
    rw [ih, syncStep_total]
    omega

/-- C2 (amended): with the tracking file present, sync processes every
tracked entry and returns counts summing to the number of entries (it
never aborts early), and the overall result signals failure iff the
error count is positive; at an entry whose download fails, sync
increments the error count and continues, but it removes the created
install directory only for non-registry exceptions — a registry API
error (`SkilzyError`, e.g. a failed download) leaves the
partially-created directory in place. -/
theorem c2_sync_error_isolation :
    (∀ (force : Bool) (o : String → SyncOracle) (st : SysState)
        (c : FileContent), st.tracking = .file c →
        ∃ r : SyncResult,
          (sync_skills force o st).1 = .ok r ∧
          r.success_count + r.skip_count + r.error_count =
            (load_skills st.tracking).length ∧
          (syncSignalsFailure r = true ↔ 0 < r.error_count)) ∧
    (∀ (force : Bool) (o : String → SyncOracle) (acc : SyncResult × Dirs)
        (k : String) (e : SkillEntry) (err : Err),
        dictGet acc.2 e.path = none →
        strContains k '/' = true →
        (o k).extract [] = .error err →
        isSkilzyError err = true →
        syncStep force o acc (k, e) =
          ({ acc.1 with error_count := acc.1.error_count + 1 },
           dictSet acc.2 e.path []) ∧
        dictGet (dictSet acc.2 e.path []) e.path = some []) ∧
    (∀ (force : Bool) (o : String → SyncOracle) (acc : SyncResult × Dirs)
        (k : String) (e : SkillEntry) (err : Err),
        dictGet acc.2 e.path = none →
        strContains k '/' = true →
        (o k).extract [] = .error err →
        isSkilzyError err = false →
        (syncStep force o acc (k, e)).1 =
          { acc.1 with error_count := acc.1.error_count + 1 } ∧
        dictGet (syncStep force o acc (k, e)).2 e.path = none) := by
  have hstep : ∀ (force : Bool) (o : String → SyncOracle)
      (acc : SyncResult × Dirs) (k : String) (e : SkillEntry) (err : Err),
      dictGet acc.2 e.path = none →
      strContains k '/' = true →
      (o k).extract [] = .error err →
      syncStep force o acc (k, e) =
        (if isSkilzyError err = true then
          ({ acc.1 with error_count := acc.1.error_count + 1 },
           mkdirP (forceRemove acc.2 e.path force) e.path)
        else
          ({ acc.1 with error_count := acc.1.error_count + 1 },
           rmIfExists (mkdirP (forceRemove acc.2 e.path force) e.path)
             e.path)) := by
    intro force o acc k e err hdn hsl hext
    have hmp : markerPresent acc.2 e.path = false := by
      unfold markerPresent
      rw [hdn]
    have hfr : forceRemove acc.2 e.path force = acc.2 := by
      unfold forceRemove
      rw [if_neg]
      rintro ⟨h1, _⟩
      rw [hdn] at h1
      cases h1
    have hmk : mkdirP acc.2 e.path = dictSet acc.2 e.path [] := by
      unfold mkdirP
      rw [if_neg]
      intro h1
      rw [hdn] at h1
      cases h1
    have hscrut :
        ((dictGet (mkdirP (forceRemove acc.2 e.path force) e.path)
            e.path).getD []) = ([] : DirEntries) := by
      rw [hfr, hmk, dictGet_dictSet_self]
      rfl
    unfold syncStep
    dsimp only
    rw [if_neg (by rw [hmp]; simp)]
    rw [if_neg (by rintro ⟨h1, _⟩; rw [hsl] at h1; cases h1)]
    rw [hscrut, hext]
  have hfr2 : ∀ (acc2 : Dirs) (p : String) (force : Bool),
      dictGet acc2 p = none →
      mkdirP (forceRemove acc2 p force) p = dictSet acc2 p [] := by
    intro acc2 p force hdn
    have hfr : forceRemove acc2 p force = acc2 := by
      unfold forceRemove
      rw [if_neg]
      rintro ⟨h1, _⟩
      rw [hdn] at h1
      cases h1
    rw [hfr]
    unfold mkdirP
    rw [if_neg]
    intro h1
    rw [hdn] at h1
    cases h1
  refine ⟨?_, ?_, ?_⟩
  · intro force o st c htrack
    unfold sync_skills
    rw [htrack]
    dsimp only
    by_cases hemp : (load_skills (.file c)).isEmpty = true
    · rw [if_pos hemp]
      refine ⟨⟨0, 0, 0⟩, rfl, ?_, by simp [syncSignalsFailure]⟩
      rw [List.isEmpty_iff] at hemp
      simp [hemp]
    · rw [if_neg hemp]
      refine ⟨_, rfl, ?_, by simp [syncSignalsFailure]⟩
      have := sync_foldl_total force o (load_skills (.file c))
        (⟨0, 0, 0⟩, st.dirs)
      simpa [syncTotal] using this
  · intro force o acc k e err hdn hsl hext hskz
    rw [hstep force o acc k e err hdn hsl hext, if_pos hskz,
      hfr2 acc.2 e.path force hdn]
    exact ⟨rfl, dictGet_dictSet_self _ _ _⟩
  · intro force o acc k e err hdn hsl hext hskz
    rw [hstep force o acc k e err hdn hsl hext,
      if_neg (by rw [hskz]; simp)]
    exact ⟨rfl, dictGet_rmIfExists_self _ _⟩

/-- Registry download failing with an HTTP 500 at every entry. -/
def failOracle : String → SyncOracle := fun _ =>
  ⟨fun _ => .error (.skilzyAPIError .generic
    "Failed to download skill. Status code: 500" 500)⟩

/-- A non-registry failure (corrupt archive) at every entry. -/
def badZipOracle : String → SyncOracle := fun _ =>
  ⟨fun _ => .error (.exception "File is not a zip file")⟩

def entryPdf : SkillEntry := ⟨"1.2.0", "skills/pdf", [], none⟩

/-- One tracked entry, nothing installed on disk. -/
def stTracked1 : SysState :=
  ⟨[], .file (.valid ⟨"1.0", [("acme/pdf", entryPdf)]⟩)⟩

/-- Witness for C2 at concrete runs: a registry-failing sync, a
registry-failing entry, and a corrupt-archive entry. -/
theorem c2_sync_error_isolation_witness :
    (∃ r : SyncResult,
      (sync_skills false failOracle stTracked1).1 = .ok r ∧
      r.success_count + r.skip_count + r.error_count =
        (load_skills stTracked1.tracking).length ∧
      (syncSignalsFailure r = true ↔ 0 < r.error_count)) ∧
    (syncStep false failOracle (⟨0, 0, 0⟩, []) ("acme/pdf", entryPdf) =
       (⟨0, 0, 1⟩, dictSet [] entryPdf.path []) ∧
     dictGet (dictSet ([] : Dirs) entryPdf.path []) entryPdf.path =
       some []) ∧
    ((syncStep false badZipOracle (⟨0, 0, 0⟩, []) ("acme/pdf", entryPdf)).1 =
       ⟨0, 0, 1⟩ ∧
     dictGet (syncStep false badZipOracle (⟨0, 0, 0⟩, [])
        ("acme/pdf", entryPdf)).2 entryPdf.path = none) :=
  ⟨c2_sync_error_isolation.1 false failOracle stTracked1
      (.valid ⟨"1.0", [("acme/pdf", entryPdf)]⟩) rfl,
   c2_sync_error_isolation.2.1 false failOracle (⟨0, 0, 0⟩, [])
      "acme/pdf" entryPdf
      (.skilzyAPIError .generic "Failed to download skill. Status code: 500"
        500)
      rfl (by decide) rfl rfl,
   c2_sync_error_isolation.2.2 false badZipOracle (⟨0, 0, 0⟩, [])
      "acme/pdf" entryPdf (.exception "File is not a zip file")
      rfl (by decide) rfl rfl⟩

/-- Counterexample to C2 as stated: after a sync whose single entry
fails download with a registry API error, the error is counted but the
partially-created install directory `skills/pdf` is still on disk —
the `except SkilzyError` arm of the loop performs no directory
cleanup. -/
theorem c2_counterexample :
    (sync_skills false failOracle stTracked1).1 = .ok ⟨0, 0, 1⟩ ∧
    (dictGet (sync_skills false failOracle stTracked1).2.dirs
      "skills/pdf").isSome = true := ⟨rfl, rfl⟩

/-- Embeds `key.split('/', 1)[1]`: the part of a key after its first slash. -/
def afterFirstSlash (s : String) : String := (splitFirst s).2

/-- The fallback scan of `actions.remove_skill` (lines 466-473): the
first key in iteration order that contains a slash and whose part after
the first slash equals the requested name. -/
def findSuffixKey (skills : List (String × SkillEntry)) (req : String) :
    Option (String × SkillEntry) :=
  skills.find? (fun q => strContains q.1 '/' && (afterFirstSlash q.1 == req))

inductive RemoveOutcome where
  | removed (key : String)
  | cancelled
deriving Repr, DecidableEq

/-- Embeds `actions.remove_skill` (lines 437-500): exact key match first, else
the suffix-match scan; no match raises the not-tracked ValueError; a
match (without cancellation at the prompt) removes the matched entry's
directory if it exists and untracks the matched key. -/
def remove_skill_action (skill_name : String) (force confirm : Bool)
    (st : SysState) : Except Err RemoveOutcome × SysState :=
  match
    (match dictGet (load_skills st.tracking) skill_name with
     | some e => some (skill_name, e)
     | none => findSuffixKey (load_skills st.tracking) skill_name)
  with
  | none =>
      (.error (.valueError "Skill is not tracked in skilzy.json."), st)
  | some ke =>
      if force = false ∧ confirm = false then (.ok .cancelled, st)
      else
        (.ok (.removed ke.1),
         ⟨rmIfExists st.dirs ke.2.path,
          (remove_skill st.tracking ke.1).2⟩)

theorem find?_append_first {α : Type} (p : α → Bool) (l₁ l₂ : List α)
    (a : α) (h1 : ∀ x ∈ l₁, p x = false) (h2 : p a = true) :
    (l₁ ++ a :: l₂).find? p = some a := by
  induction l₁ with
  | nil => simpa using List.find?_cons_of_pos _ h2
  | cons b rest ih =>
    have hb : p b = false := h1 b (List.mem_cons_self _ _)
    rw [List.cons_append, List.find?_cons_of_neg _ (by simp [hb])]
    exact ih (fun x hx => h1 x (List.mem_cons_of_mem _ hx))

/-- C10: for a requested name with no slash and no exact key match, the
remove-skill action matches the first key in the manifest's stored order
whose part after the first slash equals the requested name, and removes
that entry — its directory and its tracking record; only when no exact
match and no suffix match exist does it fail with the not-tracked
error. -/
theorem c10_remove_suffix_match (st : SysState) (req : String)
    (hnoslash : strContains req '/' = false)
    (hexact : dictGet (load_skills st.tracking) req = none) :
    (∀ (l₁ l₂ : List (String × SkillEntry)) (k : String) (e : SkillEntry),
        load_skills st.tracking = l₁ ++ (k, e) :: l₂ →
        (∀ q ∈ l₁,
          ¬ (strContains q.1 '/' = true ∧ afterFirstSlash q.1 = req)) →
        strContains k '/' = true →
        afterFirstSlash k = req →
        remove_skill_action req true true st =
          (.ok (.removed k),
           ⟨rmIfExists st.dirs e.path, (remove_skill st.tracking k).2⟩)) ∧
    ((∀ q ∈ load_skills st.tracking,
        ¬ (strContains q.1 '/' = true ∧ afterFirstSlash q.1 = req)) →
      remove_skill_action req true true st =
        (.error (.valueError "Skill is not tracked in skilzy.json."), st)) := by
  constructor
  · intro l₁ l₂ k e hload hfirst hsl hsuf
    have hpred : ∀ q ∈ l₁,
        (strContains q.1 '/' && (afterFirstSlash q.1 == req)) = false := by
      intro q hq
      have hn := hfirst q hq
      by_cases hc : strContains q.1 '/' = true
      · have hne : ¬ (afterFirstSlash q.1 = req) := fun hh => hn ⟨hc, hh⟩
        simp [hc, hne]
      · rw [Bool.not_eq_true] at hc
        simp [hc]
    have hfind : findSuffixKey (load_skills st.tracking) req = some (k, e) := by
      unfold findSuffixKey
      rw [hload]
      exact find?_append_first _ l₁ l₂ (k, e) hpred (by simp [hsl, hsuf])
    unfold remove_skill_action
    rw [hexact]
    dsimp only
    rw [hfind]
    dsimp only
    rw [if_neg (by rintro ⟨h1, _⟩; cases h1)]
  · intro hall
    have hfind : findSuffixKey (load_skills st.tracking) req = none := by
      unfold findSuffixKey
      rw [List.find?_eq_none]
      intro q hq
      have hn := hall q hq
      by_cases hc : strContains q.1 '/' = true
      · have hne : ¬ (afterFirstSlash q.1 = req) := fun hh => hn ⟨hc, hh⟩
        simp [hc, hne]
      · rw [Bool.not_eq_true] at hc
        simp [hc]
    unfold remove_skill_action
    rw [hexact]
    dsimp only
    rw [hfind]

def entryX : SkillEntry := ⟨"0.1.0", "skills/x", [], none⟩

def entryZ : SkillEntry := ⟨"0.2.0", "skills/zpdf", [], none⟩

def entryPdf2 : SkillEntry := ⟨"1.2.0", "skills/pdf", [], some "acme"⟩

/-- Three tracked entries; the second and third both end in `pdf`. -/
def st10 : SysState :=
  ⟨[("skills/pdf", [("skill.json", FsNode.file)])],
   .file (.valid ⟨"1.0",
     [("other/x", entryX), ("acme/pdf", entryPdf2), ("z/pdf", entryZ)]⟩)⟩

/-- Witness for C10: requesting `pdf` removes `acme/pdf` (the first
suffix match in stored order, not `z/pdf`); requesting `zzz` fails with
the not-tracked error. -/
theorem c10_remove_suffix_match_witness :
    remove_skill_action "pdf" true true st10 =
      (.ok (.removed "acme/pdf"),
       ⟨rmIfExists st10.dirs entryPdf2.path,
        (remove_skill st10.tracking "acme/pdf").2⟩) ∧
    remove_skill_action "zzz" true true st10 =
      (.error (.valueError "Skill is not tracked in skilzy.json."), st10) :=
  ⟨(c10_remove_suffix_match st10 "pdf" (by decide) (by decide)).1
      [("other/x", entryX)] [("z/pdf", entryZ)] "acme/pdf" entryPdf2
      rfl (by decide) (by decide) (by decide),
   (c10_remove_suffix_match st10 "zzz" (by decide) (by decide)).2
      (by decide)⟩
